import Mathlib

/-!
# claude-code-discord: `src/bot.js`

A shallow embedding of the request parser, the shell command construction, the
session registry, the status relay and the `messageCreate` handler of
`src/bot.js`, with the properties stated about them.

JavaScript strings are sequences of UTF-16 code units, so a string is a
`List Nat` of code units here; `length`, `slice`, `trim`, `startsWith` and the
regular expressions of the source all work on code units.
-/

namespace Bot

/-! ## Strings -/

/-- A JavaScript string, as the list of its UTF-16 code units. -/
abbrev JsString := List Nat

/-- UTF-16 encoding of a string literal of the source: one code unit for a
character of the basic plane, a surrogate pair for any other. -/
def utf16 (s : String) : JsString :=
  s.toList.flatMap fun c =>
    if c.toNat < 0x10000 then [c.toNat]
    else [0xD800 + (c.toNat - 0x10000) / 0x400, 0xDC00 + (c.toNat - 0x10000) % 0x400]

/-- Code units that `String.prototype.trim` strips and that `\s` matches:
ECMAScript WhiteSpace (TAB, VT, FF, SP, NBSP, ZWNBSP, category Zs) and
LineTerminator (LF, CR, LS, PS). -/
def isWhiteSpace (c : Nat) : Bool :=
  c == 0x9 || c == 0xA || c == 0xB || c == 0xC || c == 0xD || c == 0x20 ||
  c == 0xA0 || c == 0x1680 || (decide (0x2000 ≤ c) && decide (c ≤ 0x200A)) ||
  c == 0x2028 || c == 0x2029 || c == 0x202F || c == 0x205F || c == 0x3000 ||
  c == 0xFEFF

/-- Model of `String.prototype.trimStart`. -/
def trimStart (s : JsString) : JsString := s.dropWhile isWhiteSpace

/-- Model of `String.prototype.trimEnd`. -/
def trimEnd (s : JsString) : JsString := (s.reverse.dropWhile isWhiteSpace).reverse

/-- Model of `String.prototype.trim`. -/
def trim (s : JsString) : JsString := trimEnd (trimStart s)

/-- Model of `s.startsWith(c)` for a one-unit string `c`. -/
def startsWith (s : JsString) (c : Nat) : Bool :=
  match s with
  | [] => false
  | d :: _ => d == c

/-- Model of `s.slice(-n)` for `n > 0`: the last `n` code units of `s`, all of
`s` when it is shorter. -/
def sliceLast (n : Nat) (s : JsString) : JsString := s.drop (s.length - n)

/-- Model of `s.slice(0, n)`: the first `n` code units of `s`. -/
def sliceFirst (n : Nat) (s : JsString) : JsString := s.take n

/-- ECMAScript GetSubstitution for a pattern without capture groups: in the
replacement text `$$` stands for `$`, `$&` for the matched text, a dollar
followed by a backtick for the text before the match, a dollar followed by a
single quote for the text after it; every other code unit (a `$` before a
digit or `<` included, there being no groups) is copied. -/
def getSubstitution (matched before after : JsString) : JsString → JsString
  | [] => []
  | [c] => [c]
  | c :: d :: rest =>
    if c = 36 then
      if d = 36 then 36 :: getSubstitution matched before after rest
      else if d = 38 then matched ++ getSubstitution matched before after rest
      else if d = 96 then before ++ getSubstitution matched before after rest
      else if d = 39 then after ++ getSubstitution matched before after rest
      else c :: getSubstitution matched before after (d :: rest)
    else c :: getSubstitution matched before after (d :: rest)

/-! ## Request parser (`parseMessage`, lines 60-92) -/

/-- The part `\s*(.+)$` of the pattern (flag `s`: the dot matches every code
unit) on the text after the colon: `\s*` is greedy, so the group starts at the
first code unit that is not whitespace; when there is none, `\s*` gives back
its last code unit to `.+`; on the empty text there is no match. -/
def matchRemainder (rest : JsString) : Option JsString :=
  match rest.dropWhile isWhiteSpace with
  | [] => rest.getLast?.map fun c => [c]
  | c :: g => some (c :: g)

/-- Model of `content.match(/^([^:]+):\s*(.+)$/s)`: the two groups, or `none`
when the pattern does not match. Group 1 is the text before the first colon
and must not be empty. -/
def colonMatch (content : JsString) : Option (JsString × JsString) :=
  match content.span (fun c => c != 58) with
  | (_, []) => none
  | ([], _ :: _) => none
  | (c :: g1, _ :: rest) => (matchRemainder rest).map fun g2 => (c :: g1, g2)

/-- What a match of `/^([^:]+):\s*(.+)$/s` with groups `g1` and `g2` is: the
text is `g1`, a colon, whitespace `ws` and `g2`; `g1` is not empty and has no
colon, `g2` is not empty; `\s*` being greedy and tried before `.+`, either `g2`
starts with a code unit that is not whitespace, or `g2` is the one code unit
that `\s*` had to give back. -/
def ColonPattern (content g1 g2 : JsString) : Prop :=
  g1 ≠ [] ∧ 58 ∉ g1 ∧ g2 ≠ [] ∧
    ∃ ws : JsString, content = g1 ++ 58 :: (ws ++ g2) ∧
      (∀ c ∈ ws, isWhiteSpace c = true) ∧
      ((∃ c r, g2 = c :: r ∧ isWhiteSpace c = false) ∨ g2.length = 1)

/-- Model of `potentialPath.replace(/^~/, process.env.HOME)`; `home` is the
string value of `process.env.HOME`. -/
def expandHome (home : JsString) (potentialPath : JsString) : JsString :=
  match potentialPath with
  | [] => []
  | c :: rest => if c = 126 then getSubstitution [126] [] rest home ++ rest else c :: rest

/-- The object `{ directory, task }` that `parseMessage` returns. -/
structure TaskRequest where
  directory : JsString
  task : JsString
  deriving DecidableEq, Repr

/-- What `parseMessage` reads from its surroundings: `existsSync`,
`process.env.HOME` and the constant `DEFAULT_DIR`. -/
structure Env where
  existsSync : JsString → Bool
  HOME : JsString
  DEFAULT_DIR : JsString

/-- Model of `parseMessage(content)`. The function has no `throw` and calls
nothing that raises, so it is a total function to `TaskRequest`. -/
def parseMessage (env : Env) (content : JsString) : TaskRequest :=
  match colonMatch content with
  | some (g1, g2) =>
    let potentialPath := trim g1
    if startsWith potentialPath 47 || startsWith potentialPath 126 then
      let expandedPath := expandHome env.HOME potentialPath
      if env.existsSync expandedPath then
        { directory := expandedPath, task := trim g2 }
      else
        { directory := env.DEFAULT_DIR, task := trim content }
    else
      { directory := env.DEFAULT_DIR, task := trim content }
  | none => { directory := env.DEFAULT_DIR, task := trim content }

/-! ## Command line (`runClaudeCode`, lines 122-126) -/

/-- Model of `task.replace(/'/g, "'\\''")`: every single quote (39) becomes the
four code units quote, backslash, quote, quote. The replacement text has no
`$`, so it is inserted as it is. -/
def escapedTask (task : JsString) : JsString :=
  task.flatMap fun c => if c = 39 then [39, 92, 39, 39] else [c]

/-- Model of the template literal `fullCommand`. -/
def fullCommand (task : JsString) : JsString :=
  utf16 "claude -p --dangerously-skip-permissions '" ++ escapedTask task ++ utf16 "'"

/-- Where the shell's token recognition stands: outside quotes, inside single
quotes, or right after an unquoted backslash. -/
inductive Quoting where
  | unquoted
  | single
  | escaped
  deriving DecidableEq, Repr

/-- Characters that are operators, expansions or patterns for the shell when
they are not quoted (POSIX XCU 2.2), the newline included; double quote too. -/
def isShellSpecial (c : Nat) : Bool :=
  c ∈ [10, 124, 38, 59, 60, 62, 40, 41, 36, 96, 34, 42, 63, 91, 35, 126, 61, 37]

/-- Token recognition and quote removal of the POSIX shell (XCU 2.2, 2.3) on
the command lines made of blanks, ordinary characters, backslash escapes and
single-quoted text: the words of the command, quotes removed. `cur` is the word
being read, `none` between words. The result is `none` outside this fragment:
an unquoted special character, an unterminated quote, a trailing backslash.
Inside single quotes every character stands for itself up to the next single
quote; an unquoted backslash keeps the next character (and removes a newline
together with itself). -/
def shellWords : Quoting → Option JsString → JsString → Option (List JsString)
  | .unquoted, cur, [] => some cur.toList
  | .single, _, [] => none
  | .escaped, _, [] => none
  | .unquoted, cur, c :: rest =>
    if c = 39 then shellWords .single (some (cur.getD [])) rest
    else if c = 92 then shellWords .escaped cur rest
    else if c = 32 ∨ c = 9 then
      match cur with
      | some w => (shellWords .unquoted none rest).map fun ws => w :: ws
      | none => shellWords .unquoted none rest
    else if isShellSpecial c then none
    else shellWords .unquoted (some (cur.getD [] ++ [c])) rest
  | .single, cur, c :: rest =>
    if c = 39 then shellWords .unquoted cur rest
    else shellWords .single (some (cur.getD [] ++ [c])) rest
  | .escaped, cur, c :: rest =>
    if c = 10 then shellWords .unquoted cur rest
    else shellWords .unquoted (some (cur.getD [] ++ [c])) rest

/-- The argument vector that `spawn(fullCommand, [], { shell: true })` makes the
shell run: `spawn` rejects a command with a NUL code unit, and the shell splits
the rest into words. The characters that matter to the shell are ASCII, so
the words are read on code units; the encoding of the text is left out. -/
def spawnArgv (command : JsString) : Option (List JsString) :=
  if 0 ∈ command then none else shellWords .unquoted none command

/-! ## Status texts (`runClaudeCode`, lines 144-231) -/

/-- The constant `UPDATE_INTERVAL`, in milliseconds. -/
def UPDATE_INTERVAL : Int := 2000

/-- The constant `MAX_MESSAGE_LENGTH`. -/
def MAX_MESSAGE_LENGTH : Nat := 1900

/-- The line that `updateStatus` puts first (`prefix` in the source). -/
def statusHeading (isFinal : Bool) : JsString :=
  if isFinal then utf16 "✅ **Completed**" else utf16 "⏳ **Working**"

/-- The value of `displayContent` in `updateStatus`. -/
def displayContent (content : JsString) : JsString :=
  if content.length > MAX_MESSAGE_LENGTH then
    utf16 "..." ++ sliceLast MAX_MESSAGE_LENGTH content
  else content

/-- The template literal `formattedContent` of `updateStatus`. -/
def formattedContent (directory content : JsString) (isFinal : Bool) : JsString :=
  statusHeading isFinal ++ utf16 "\n📁 `" ++ directory ++ utf16 "`\n\n```\n" ++
    displayContent content ++ utf16 "\n```"

/-- The text that `updateStatus(content, isFinal)` passes to
`statusMessage.edit`: `formattedContent.slice(0, 2000)`. -/
def updateStatusText (directory content : JsString) (isFinal : Bool) : JsString :=
  sliceFirst 2000 (formattedContent directory content isFinal)

/-- Decimal digits of a number, as a template literal prints it. -/
def decimal (n : Nat) : JsString := (Nat.toDigits 10 n).map Char.toNat

/-- The text of `code` in a template literal: the exit code of the process, or
`null` when a signal ended it. -/
def showCode : Option Nat → JsString
  | none => utf16 "null"
  | some n => decimal n

/-- Model of `a || b` on strings: `b` when `a` is the empty string. -/
def orElse (a b : JsString) : JsString := if a = [] then b else a

/-- The text that the `close` handler passes to `statusMessage.edit` for an
exit code other than 0 (lines 210-212). -/
def failureText (code : Option Nat) (directory outputBuffer : JsString) : JsString :=
  utf16 "❌ **Failed** (exit code: " ++ showCode code ++ utf16 ")\n📁 `" ++ directory ++
    utf16 "`\n\n```\n" ++ orElse (sliceLast 1500 outputBuffer) (utf16 "No output") ++
    utf16 "\n```"

/-- The text that the `error` handler passes to `statusMessage.edit`
(line 227); `message` is `err.message`. -/
def errorText (message : JsString) : JsString :=
  utf16 "❌ **Error spawning Claude Code**\n```\n" ++ message ++ utf16 "\n```"

/-- The text that the `stderr` handler appends to the buffer (line 190). -/
def stderrText (chunk : JsString) : JsString := utf16 "[stderr] " ++ chunk

/-! ## Session registry and the handlers of one session -/

/-- The `Map` `activeSessions`: session id and process id of the child process
handle stored under it, in insertion order, one entry per key. -/
structure SessionMap where
  entries : List (JsString × Nat)
  deriving DecidableEq, Repr

/-- Model of `activeSessions.has(key)`. -/
def SessionMap.has (m : SessionMap) (key : JsString) : Bool :=
  m.entries.any fun e => e.1 == key

/-- Model of `activeSessions.get(key)`. -/
def SessionMap.get (m : SessionMap) (key : JsString) : Option Nat :=
  (m.entries.find? fun e => e.1 == key).map fun e => e.2

/-- Model of `activeSessions.set(key, value)`: the value of a key already
present is replaced in place, a new key is added last. -/
def SessionMap.set (m : SessionMap) (key : JsString) (value : Nat) : SessionMap :=
  if m.has key then
    { entries := m.entries.map fun e => if e.1 == key then (key, value) else e }
  else
    { entries := m.entries ++ [(key, value)] }

/-- Model of `activeSessions.delete(key)`. -/
def SessionMap.delete (m : SessionMap) (key : JsString) : SessionMap :=
  { entries := m.entries.filter fun e => !(e.1 == key) }

/-- The variables that the handlers of one `runClaudeCode` call close over,
and `edits`: every text handed to `statusMessage.edit`, oldest first. -/
structure Session where
  sessionId : JsString
  directory : JsString
  outputBuffer : JsString
  lastUpdateTime : Int
  edits : List JsString
  deriving DecidableEq, Repr

/-- How a piece of code ends: it returns, or an exception leaves it. -/
inductive Outcome (σ : Type) where
  | returned (state : σ)
  | threw (state : σ)
  deriving DecidableEq, Repr

/-- The state a piece of code leaves behind. -/
def Outcome.state {σ : Type} : Outcome σ → σ
  | .returned s => s
  | .threw s => s

/-- Model of `try { body } catch (err) { log(...) }`: the exception is logged
and the code returns. -/
def Outcome.caught {σ : Type} (body : Outcome σ) : Outcome σ := .returned body.state

/-- Model of `await statusMessage.edit(text)`; `accepts` tells whether the
transport accepts the edit or the promise rejects. -/
def statusMessageEdit (accepts : Bool) (text : JsString) (s : Session) : Outcome Session :=
  let s1 := { s with edits := s.edits ++ [text] }
  if accepts then .returned s1 else .threw s1

/-- Model of `updateStatus(content, isFinal)` (lines 149-168). -/
def updateStatus (accepts : Bool) (content : JsString) (isFinal : Bool) (s : Session) :
    Outcome Session :=
  (statusMessageEdit accepts (updateStatusText s.directory content isFinal) s).caught

/-- Model of the handler of `stdout` data (lines 170-185); `now` is the value
of `Date.now()`. -/
def onStdout (now : Int) (accepts : Bool) (chunk : JsString) (s : Session) : Session :=
  let s1 := { s with outputBuffer := s.outputBuffer ++ chunk }
  if now - s1.lastUpdateTime > UPDATE_INTERVAL then
    let s2 := { s1 with lastUpdateTime := now }
    (updateStatus accepts s2.outputBuffer false s2).state
  else s1

/-- Model of the handler of `stderr` data (lines 187-191). -/
def onStderr (chunk : JsString) (s : Session) : Session :=
  { s with outputBuffer := s.outputBuffer ++ stderrText chunk }

/-- Model of the handler of `close` (lines 193-217). -/
def onClose (accepts : Bool) (code : Option Nat) (activeSessions : SessionMap) (s : Session) :
    Outcome (SessionMap × Session) :=
  let activeSessions1 := activeSessions.delete s.sessionId
  if code = some 0 then
    match updateStatus accepts
        (orElse s.outputBuffer (utf16 "Task completed successfully (no output)")) true s with
    | .returned s1 => .returned (activeSessions1, s1)
    | .threw s1 => .threw (activeSessions1, s1)
  else
    match (statusMessageEdit accepts (failureText code s.directory s.outputBuffer) s).caught with
    | .returned s1 => .returned (activeSessions1, s1)
    | .threw s1 => .threw (activeSessions1, s1)

/-- Model of the handler of `error` (lines 219-231); `message` is
`err.message`. -/
def onError (accepts : Bool) (message : JsString) (activeSessions : SessionMap) (s : Session) :
    Outcome (SessionMap × Session) :=
  let activeSessions1 := activeSessions.delete s.sessionId
  match (statusMessageEdit accepts (errorText message) s).caught with
  | .returned s1 => .returned (activeSessions1, s1)
  | .threw s1 => .threw (activeSessions1, s1)

/-- A chunk that the child process writes. -/
inductive Output where
  | stdout (now : Int) (accepts : Bool) (chunk : JsString)
  | stderr (chunk : JsString)
  deriving DecidableEq, Repr

/-- The data handlers run on the chunks of a process, in arrival order. -/
def relay (s : Session) : List Output → Session
  | [] => s
  | .stdout now accepts chunk :: rest => relay (onStdout now accepts chunk s) rest
  | .stderr chunk :: rest => relay (onStderr chunk s) rest

/-- The arrival times of the `stdout` chunks of a list of chunks. -/
def stdoutTimes : List Output → List Int
  | [] => []
  | .stdout now _ _ :: rest => now :: stdoutTimes rest
  | .stderr _ :: rest => stdoutTimes rest

/-- What a chunk adds to the buffer according to the handlers. -/
def Output.text : Output → JsString
  | .stdout _ _ chunk => chunk
  | .stderr chunk => stderrText chunk

/-- The lines of a text: its pieces between line feeds. -/
def lines (s : JsString) : List JsString := s.splitOn 10

/-! ## The `messageCreate` handler and the event loop -/

/-- What the handlers read of a Discord message. -/
structure Message where
  id : Nat
  authorBot : Bool
  inGuild : Bool
  mentionsBot : Bool
  channelId : JsString
  authorId : JsString
  content : JsString
  deriving DecidableEq, Repr

/-- Code units matched by `\d`. -/
def isDigit (c : Nat) : Bool := decide (48 ≤ c) && decide (c ≤ 57)

/-- Length of the match of `<@!?\d+>` at the start of a text, when there is
one: `<@`, an optional `!`, one or more digits, `>`. -/
def mentionLength (s : JsString) : Option Nat :=
  match s with
  | c :: d :: rest =>
    if c = 60 ∧ d = 64 then
      let bang : Nat := if startsWith rest 33 then 1 else 0
      let digits := (rest.drop bang).takeWhile isDigit
      if digits ≠ [] ∧ startsWith (rest.drop (bang + digits.length)) 62 then
        some (2 + bang + digits.length + 1)
      else none
    else none
  | _ => none

/-- Model of `text.replace(/<@!?\d+>/g, '')`: the matches are found left to
right and dropped; `skip` counts the code units of the current match that are
still to be dropped. -/
def stripMentions : Nat → JsString → JsString
  | _, [] => []
  | skip + 1, _ :: rest => stripMentions skip rest
  | 0, c :: rest =>
    match mentionLength (c :: rest) with
    | some n => stripMentions (n - 1) rest
    | none => c :: stripMentions 0 rest

/-- The help text of line 276. -/
def helpText (defaultDir : JsString) : JsString :=
  utf16 "👋 Send me a task to work on!\n\n" ++ utf16 "**Format:**\n" ++
    utf16 "• Just send a task: `fix the login bug`\n" ++
    utf16 "• With specific directory: `/path/to/project: fix the login bug`\n\n" ++
    utf16 "Default directory: `" ++ defaultDir ++ utf16 "`"

/-- The reply of line 292. -/
def directoryNotFoundText (directory : JsString) : JsString :=
  utf16 "❌ Directory not found: `" ++ directory ++ utf16 "`"

/-- The reply of line 111. -/
def alreadyActiveText : JsString :=
  utf16 "⚠️ You already have an active Claude Code session. Please wait for it to complete."

/-- Model of `task.substring(0, 100)` followed by `...` for a longer task. -/
def taskSummary (task : JsString) : JsString :=
  task.take 100 ++ (if task.length > 100 then utf16 "..." else [])

/-- The acknowledgment of line 117. -/
def acknowledgmentText (directory task : JsString) : JsString :=
  utf16 "🚀 Starting Claude Code session...\n📁 Directory: `" ++ directory ++
    utf16 "`\n📝 Task: " ++ taskSummary task

/-- How the `messageCreate` handler ends: it returns at once, it replies and
returns, or it calls `runClaudeCode(message, directory, task)`. -/
inductive Dispatch where
  | ignored
  | reply (text : JsString)
  | runClaudeCode (directory task : JsString)
  deriving DecidableEq, Repr

/-- Model of the `messageCreate` handler (lines 242-298). -/
def messageCreate (env : Env) (message : Message) : Dispatch :=
  if message.authorBot then .ignored
  else
    let isDM := !message.inGuild
    let isMentioned := message.mentionsBot
    if !isDM && !isMentioned then .ignored
    else
      let content := trim (stripMentions 0 message.content)
      if content = [] then .reply (helpText env.DEFAULT_DIR)
      else
        let parsed := parseMessage env content
        if !env.existsSync parsed.directory then
          .reply (directoryNotFoundText parsed.directory)
        else .runClaudeCode parsed.directory parsed.task

/-- Model of the template literal `sessionId` (line 98). -/
def sessionIdOf (message : Message) : JsString :=
  message.channelId ++ utf16 "-" ++ message.authorId

/-- A call of `runClaudeCode` suspended at `await message.reply(...)` of
line 117, after its admission check. -/
structure Pending where
  messageId : Nat
  sessionId : JsString
  directory : JsString
  task : JsString
  deriving DecidableEq, Repr

/-- A child process made by `spawn` with the state of its handlers. -/
structure Process where
  pid : Nat
  command : JsString
  cwd : JsString
  session : Session
  deriving DecidableEq, Repr

/-- The state of the bot between two turns of the event loop: the registry,
the suspended calls of `runClaudeCode`, the child processes whose `close` event
has not been handled, the replies sent so far, and the next process id. -/
structure World where
  activeSessions : SessionMap
  pending : List Pending
  live : List Process
  replies : List (Nat × JsString)
  nextPid : Nat
  deriving DecidableEq, Repr

/-- The bot right after start: nothing registered, nothing running. -/
def World.init : World :=
  { activeSessions := ⟨[]⟩, pending := [], live := [], replies := [], nextPid := 1 }

/-- One turn of the event loop. -/
inductive Turn where
  | message (m : Message)
  | acknowledged (messageId : Nat) (now : Int)
  | stdout (pid : Nat) (now : Int) (accepts : Bool) (chunk : JsString)
  | stderr (pid : Nat) (chunk : JsString)
  | close (pid : Nat) (code : Option Nat) (accepts : Bool)
  | error (pid : Nat) (message : JsString) (accepts : Bool)
  deriving DecidableEq, Repr

/-- Replace the process with the given id. -/
def World.setProcess (w : World) (p : Process) : World :=
  { w with live := w.live.map fun q => if q.pid = p.pid then p else q }

/-- Model of `runClaudeCode(message, directory, task)` up to its first
`await` (lines 97-119): the admission check of line 109, then the notice of
line 111 and `return`, or the acknowledgment of line 117, at which the call is
suspended. -/
def runClaudeCode (w : World) (message : Message) (directory task : JsString) : World :=
  let sessionId := sessionIdOf message
  if w.activeSessions.has sessionId then
    { w with replies := w.replies ++ [(message.id, alreadyActiveText)] }
  else
    { w with
      replies := w.replies ++ [(message.id, acknowledgmentText directory task)]
      pending := w.pending ++ [⟨message.id, sessionId, directory, task⟩] }

/-- Model of `runClaudeCode` from the return of the `await` of line 117 on
(lines 120-232): `spawn`, `activeSessions.set`, the variables of the handlers;
`now` is the value of `Date.now()` at line 145. -/
def runClaudeCodeResumed (w : World) (call : Pending) (now : Int) : World :=
  let claudeProcess : Process :=
    { pid := w.nextPid, command := fullCommand call.task, cwd := call.directory,
      session := { sessionId := call.sessionId, directory := call.directory,
                   outputBuffer := [], lastUpdateTime := now, edits := [] } }
  { w with
    pending := w.pending.filter fun d => !(d.messageId == call.messageId)
    live := w.live ++ [claudeProcess]
    activeSessions := w.activeSessions.set call.sessionId claudeProcess.pid
    nextPid := w.nextPid + 1 }

/-- The turns of the event loop. `message` runs the `messageCreate` handler
and, when it calls `runClaudeCode`, that function up to its first `await`.
`acknowledged` resumes the suspended call of the message once its
acknowledgment is sent. The other turns run a handler of a child process;
`close` ends the life of the handle, `error` does not (Node may emit `close`
after it, or the process may go on running). The result is `none` when the
turn cannot happen in this state (no such suspended call, no such process) or
when an exception leaves the handler. -/
def step (env : Env) (w : World) : Turn → Option World
  | .message m =>
    match messageCreate env m with
    | .ignored => some w
    | .reply text => some { w with replies := w.replies ++ [(m.id, text)] }
    | .runClaudeCode directory task => some (runClaudeCode w m directory task)
  | .acknowledged messageId now =>
    match w.pending.find? fun c => c.messageId == messageId with
    | none => none
    | some call => some (runClaudeCodeResumed w call now)
  | .stdout pid now accepts chunk =>
    match w.live.find? fun p => p.pid == pid with
    | none => none
    | some p => some (w.setProcess { p with session := onStdout now accepts chunk p.session })
  | .stderr pid chunk =>
    match w.live.find? fun p => p.pid == pid with
    | none => none
    | some p => some (w.setProcess { p with session := onStderr chunk p.session })
  | .close pid code accepts =>
    match w.live.find? fun p => p.pid == pid with
    | none => none
    | some p =>
      match onClose accepts code w.activeSessions p.session with
      | .threw _ => none
      | .returned (activeSessions, _) =>
        some { w with
          activeSessions := activeSessions
          live := w.live.filter fun q => !(q.pid == pid) }
  | .error pid message accepts =>
    match w.live.find? fun p => p.pid == pid with
    | none => none
    | some p =>
      match onError accepts message w.activeSessions p.session with
      | .threw _ => none
      | .returned (activeSessions, session) =>
        some { (w.setProcess { p with session := session }) with
          activeSessions := activeSessions }

/-- The state after a list of turns, from a given state. -/
def run (env : Env) (w : World) : List Turn → Option World
  | [] => some w
  | t :: rest => (step env w t).bind fun w1 => run env w1 rest

/-- The processes of a state that were spawned for a session key. -/
def World.processesOf (w : World) (key : JsString) : List Process :=
  w.live.filter fun p => p.session.sessionId == key

/-! ## Statements and inputs of the properties -/

/-- The number of `updateStatus` calls that the data handlers make on a list
of chunks: each call hands one text to `statusMessage.edit`. -/
def updateCount (s : Session) (events : List Output) : Nat :=
  (relay s events).edits.length - s.edits.length

/-- A text contains another one in full. -/
def occursIn (part whole : JsString) : Prop :=
  ∃ before after : JsString, whole = before ++ part ++ after

/-- A line starts with the marker of the `stderr` handler. -/
def hasStderrMarker (line : JsString) : Bool :=
  line.take 9 == utf16 "[stderr] "

/-- A directory path of 73 code units. -/
def wideDirectory : JsString := List.replicate 73 97

/-- An output of 1901 code units that ends in a `y` after 1900 `x`. -/
def markedOutput : JsString := List.replicate 1900 120 ++ [121]

/-- An environment for examples: only the listed paths exist. -/
def envOf (paths : List JsString) (home defaultDir : JsString) : Env :=
  { existsSync := fun p => decide (p ∈ paths), HOME := home, DEFAULT_DIR := defaultDir }

/-- The reading of "a leading `~` is replaced with the home directory": the
home directory followed by the rest of the path. -/
def replaceLeadingTilde (home path : JsString) : JsString :=
  match path with
  | [] => []
  | c :: rest => if c = 126 then home ++ rest else c :: rest

/-- Two direct messages of one author in one channel, and the turns in which
the second arrives before the acknowledgment of the first is delivered. -/
def raceTurns : List Turn :=
  [ .message ⟨1, false, false, false, utf16 "c1", utf16 "u1", utf16 "fix the login bug"⟩,
    .message ⟨2, false, false, false, utf16 "c1", utf16 "u1", utf16 "run tests"⟩,
    .acknowledged 1 1000,
    .acknowledged 2 1001 ]

/-- A state with one running session, of key `c1-u1` and process 1. -/
def oneSession : World :=
  { activeSessions := ⟨[(utf16 "c1-u1", 1)]⟩, pending := [],
    live := [⟨1, fullCommand (utf16 "run tests"), utf16 "/work",
      ⟨utf16 "c1-u1", utf16 "/work", utf16 "partial output", 0, []⟩⟩],
    replies := [], nextPid := 2 }

/-- A session in a directory whose path has 502 code units (two components of
250), with 1500 code units of output. -/
def longDirectorySession : Session :=
  { sessionId := utf16 "c1-u1",
    directory := 47 :: List.replicate 250 97 ++ 47 :: List.replicate 250 98,
    outputBuffer := List.replicate 1500 120,
    lastUpdateTime := 0,
    edits := [] }

/-- Six `stdout` chunks and one `stderr` chunk within 4.5 seconds of the
start of a session at time 0. -/
def burst : List Output :=
  [.stdout 100 true (utf16 "a"), .stdout 2001 true (utf16 "b"), .stderr (utf16 "w"),
    .stdout 2002 true (utf16 "c"), .stdout 4001 false (utf16 "d"),
    .stdout 4002 true (utf16 "e"), .stdout 4500 true (utf16 "f")]

/-! ## Strings: lemmas -/

theorem dropWhile_append_singleton_of_not (p : Nat → Bool) (l : JsString) (c : Nat)
    (hc : p c = false) : (l ++ [c]).dropWhile p = l.dropWhile p ++ [c] := by
  induction l with
  | nil => simp [List.dropWhile, hc]
  | cons a l ih =>
    by_cases ha : p a = true
    · simp [List.dropWhile, ha, ih]
    · simp [List.dropWhile, ha]

theorem trimEnd_cons_of_not (c : Nat) (rest : JsString) (hc : isWhiteSpace c = false) :
    trimEnd (c :: rest) = c :: trimEnd rest := by
  simp [trimEnd, dropWhile_append_singleton_of_not _ _ _ hc]

theorem trim_cons_of_not (c : Nat) (rest : JsString) (hc : isWhiteSpace c = false) :
    trim (c :: rest) = c :: trimEnd rest := by
  simp [trim, trimStart, List.dropWhile, hc, trimEnd_cons_of_not]

theorem trim_cons_of_whiteSpace (c : Nat) (rest : JsString) (hc : isWhiteSpace c = true) :
    trim (c :: rest) = trim rest := by
  simp [trim, trimStart, List.dropWhile, hc]

theorem trim_dropWhile (s : JsString) : trim (s.dropWhile isWhiteSpace) = trim s := by
  induction s with
  | nil => rfl
  | cons c s ih =>
    by_cases hc : isWhiteSpace c = true
    · simp [List.dropWhile, hc, ih, trim_cons_of_whiteSpace]
    · simp [List.dropWhile, hc]

theorem trim_eq_nil_of_all (s : JsString) (h : ∀ c ∈ s, isWhiteSpace c = true) :
    trim s = [] := by
  induction s with
  | nil => rfl
  | cons c s ih =>
    rw [trim_cons_of_whiteSpace c s (h c (List.mem_cons_self _ _))]
    exact ih fun d hd => h d (List.mem_cons_of_mem _ hd)

theorem all_of_dropWhile_eq_nil (p : Nat → Bool) (s : JsString)
    (h : s.dropWhile p = []) : ∀ c ∈ s, p c = true := by
  induction s with
  | nil => intro c hc; cases hc
  | cons a s ih =>
    by_cases ha : p a = true
    · simp only [List.dropWhile, ha] at h
      intro c hc
      rcases List.mem_cons.mp hc with rfl | hc
      · exact ha
      · exact ih h c hc
    · simp [List.dropWhile, ha] at h

theorem head_dropWhile_false (p : Nat → Bool) (s : JsString) (c : Nat) (r : JsString)
    (h : s.dropWhile p = c :: r) : p c = false := by
  induction s with
  | nil => simp at h
  | cons a s ih =>
    by_cases ha : p a = true
    · simp only [List.dropWhile, ha] at h
      exact ih h
    · simp only [List.dropWhile, ha] at h
      simp only [List.cons.injEq] at h
      rw [← h.1]
      simpa using ha

theorem trimEnd_trimEnd (s : JsString) : trimEnd (trimEnd s) = trimEnd s := by
  simp [trimEnd, List.dropWhile_idempotent]

theorem trim_trim (s : JsString) : trim (trim s) = trim s := by
  unfold trim trimStart
  cases hd : s.dropWhile isWhiteSpace with
  | nil => rfl
  | cons c r =>
    have hc := head_dropWhile_false _ _ _ _ hd
    rw [trimEnd_cons_of_not c r hc]
    simp only [List.dropWhile, hc]
    rw [trimEnd_cons_of_not c _ hc, trimEnd_trimEnd]

theorem getSubstitution_of_no_dollar (matched before after : JsString) :
    ∀ r : JsString, 36 ∉ r → getSubstitution matched before after r = r
  | [], _ => rfl
  | [_], _ => rfl
  | c :: d :: rest, h => by
    have hc : c ≠ 36 := fun e => h (by simp [e])
    have ih := getSubstitution_of_no_dollar matched before after (d :: rest)
      (fun hm => h (List.mem_cons_of_mem _ hm))
    simp [getSubstitution, hc, ih]

/-! ## Request parser: lemmas -/

theorem span_colon (path rest : JsString) (h : 58 ∉ path) :
    (path ++ 58 :: rest).span (fun c => c != 58) = (path, 58 :: rest) := by
  induction path with
  | nil => simp [List.span_eq_take_drop, List.takeWhile, List.dropWhile]
  | cons a path ih =>
    have ha : a ≠ 58 := fun e => h (by simp [e])
    have ih1 := ih fun hm => h (List.mem_cons_of_mem _ hm)
    simp only [List.span_eq_take_drop, Prod.mk.injEq] at ih1 ⊢
    have hb : (a != 58) = true := by simpa using ha
    simp [List.takeWhile, List.dropWhile, hb, ih1.1, ih1.2]

theorem colonMatch_append (c : Nat) (path rest : JsString) (h : 58 ∉ c :: path) :
    colonMatch ((c :: path) ++ 58 :: rest) =
      (matchRemainder rest).map fun g2 => (c :: path, g2) := by
  unfold colonMatch
  rw [span_colon _ _ h]

theorem dropWhile_append_of_all (p : Nat → Bool) (ws g : JsString)
    (h : ∀ c ∈ ws, p c = true) : (ws ++ g).dropWhile p = g.dropWhile p := by
  induction ws with
  | nil => rfl
  | cons a ws ih =>
    have ha : p a = true := h a (List.mem_cons_self _ _)
    simp only [List.cons_append, List.dropWhile, ha]
    exact ih fun c hc => h c (List.mem_cons_of_mem _ hc)

theorem matchRemainder_eq_some_iff (rest g2 : JsString) :
    matchRemainder rest = some g2 ↔
      g2 ≠ [] ∧ ∃ ws : JsString, rest = ws ++ g2 ∧ (∀ c ∈ ws, isWhiteSpace c = true) ∧
        ((∃ c r, g2 = c :: r ∧ isWhiteSpace c = false) ∨ g2.length = 1) := by
  constructor
  · intro h
    unfold matchRemainder at h
    split at h
    next hd =>
      have hall := all_of_dropWhile_eq_nil _ _ hd
      cases hl : rest.getLast? with
      | none => simp [hl] at h
      | some c =>
        simp only [hl, Option.map_some', Option.some.injEq] at h
        subst h
        refine ⟨by simp, rest.dropLast, ?_, ?_, Or.inr rfl⟩
        · exact (List.dropLast_append_getLast? c hl).symm
        · intro d hd1
          exact hall d (List.mem_of_mem_dropLast hd1)
    next c g hd =>
      simp only [Option.some.injEq] at h
      subst h
      refine ⟨by simp, rest.takeWhile isWhiteSpace, ?_, ?_, Or.inl ⟨c, g, rfl, ?_⟩⟩
      · rw [← hd, List.takeWhile_append_dropWhile]
      · intro d hd1
        exact List.mem_takeWhile_imp hd1
      · exact head_dropWhile_false _ _ _ _ hd
  · rintro ⟨hne, ws, rfl, hws, hg⟩
    unfold matchRemainder
    rw [dropWhile_append_of_all _ _ _ hws]
    rcases hg with ⟨c, r, rfl, hc⟩ | hlen
    · simp [List.dropWhile, hc]
    · match g2, hlen with
      | [c], _ =>
        by_cases hc : isWhiteSpace c = true
        · simp [List.dropWhile, hc]
        · simp [List.dropWhile, hc]

/-- The function `colonMatch` computes the match of the pattern: it returns
the groups `g1` and `g2` exactly when they are the groups of a match. -/
theorem colonMatch_eq_some_iff (content g1 g2 : JsString) :
    colonMatch content = some (g1, g2) ↔ ColonPattern content g1 g2 := by
  constructor
  · intro h
    unfold colonMatch at h
    have hspan := List.span_eq_take_drop (fun c => c != 58) content
    have happ := List.takeWhile_append_dropWhile (fun c => c != 58) content
    split at h
    next => simp at h
    next => simp at h
    next c g rest x hsp =>
      rw [hsp] at hspan
      simp only [Prod.mk.injEq] at hspan
      obtain ⟨htake, hdrop⟩ := hspan
      cases hm : matchRemainder x with
      | none => simp [hm] at h
      | some g =>
        simp only [hm, Option.map_some', Option.some.injEq, Prod.mk.injEq] at h
        obtain ⟨h1, h2⟩ := h
        subst h1 h2
        obtain ⟨hne, ws, hx, hws, hg⟩ := (matchRemainder_eq_some_iff _ _).mp hm
        have hrest : rest = 58 := by
          have := head_dropWhile_false _ _ _ _ hdrop.symm
          simpa using this
        refine ⟨by simp, ?_, hne, ws, ?_, hws, hg⟩
        · intro hmem
          rw [htake] at hmem
          have := List.mem_takeWhile_imp hmem
          simp at this
        · rw [← happ, ← htake, ← hdrop, hrest, hx]
  · rintro ⟨hne, hcolon, hg2, ws, rfl, hws, hg⟩
    match g1, hne, hcolon with
    | c :: g1, _, hcolon =>
      rw [colonMatch_append c g1 _ hcolon,
        (matchRemainder_eq_some_iff (ws ++ g2) g2).mpr ⟨hg2, ws, rfl, hws, hg⟩]
      rfl

theorem colonMatch_eq_none_of_no_colon (content : JsString) (h : 58 ∉ content) :
    colonMatch content = none := by
  cases hm : colonMatch content with
  | none => rfl
  | some g =>
    obtain ⟨g1, g2⟩ := g
    obtain ⟨_, _, _, ws, rfl, _, _⟩ := (colonMatch_eq_some_iff _ _ _).mp hm
    exact absurd (by simp) h

theorem matchRemainder_trim (rest g : JsString) (h : matchRemainder rest = some g) :
    trim g = trim rest := by
  unfold matchRemainder at h
  split at h
  next hd =>
    have hall := all_of_dropWhile_eq_nil _ _ hd
    cases hl : rest.getLast? with
    | none => simp [hl] at h
    | some c =>
      simp only [hl, Option.map_some', Option.some.injEq] at h
      subst h
      have hc : isWhiteSpace c = true := hall c (List.mem_of_getLast?_eq_some hl)
      rw [trim_eq_nil_of_all rest hall, trim_cons_of_whiteSpace _ _ hc]
      rfl
  next c g1 hd =>
    simp only [Option.some.injEq] at h
    subst h
    rw [← hd, trim_dropWhile]

theorem matchRemainder_isSome (c : Nat) (rest : JsString) :
    ∃ g, matchRemainder (c :: rest) = some g := by
  unfold matchRemainder
  split
  next hd =>
    cases hl : (c :: rest).getLast? with
    | none => simp at hl
    | some d => exact ⟨[d], by simp⟩
  next a g hd => exact ⟨a :: g, rfl⟩

theorem expandHome_eq_replaceLeadingTilde (home path : JsString)
    (h : startsWith path 126 = false ∨ 36 ∉ home) :
    expandHome home path = replaceLeadingTilde home path := by
  cases path with
  | nil => rfl
  | cons c rest =>
    by_cases hc : c = 126
    · subst hc
      rcases h with h | h
      · simp [startsWith] at h
      · simp [expandHome, replaceLeadingTilde, getSubstitution_of_no_dollar _ _ _ _ h]
    · simp [expandHome, replaceLeadingTilde, hc]

/-! ## Request parser: properties -/

/-- C1. When the request text carries no valid leading path (the pattern does
not match, or the trimmed first group starts with neither `/` nor `~`, or the
expanded first group does not exist), `parseMessage` returns the default
directory and the trimmed text; being a total function, it raises nothing. -/
theorem parseMessage_fallback (env : Env) (content : JsString)
    (h : colonMatch content = none ∨
      ∃ g1 g2, colonMatch content = some (g1, g2) ∧
        ((startsWith (trim g1) 47 = false ∧ startsWith (trim g1) 126 = false) ∨
          env.existsSync (expandHome env.HOME (trim g1)) = false)) :
    parseMessage env content = { directory := env.DEFAULT_DIR, task := trim content } := by
  unfold parseMessage
  rcases h with h | ⟨g1, g2, hm, h⟩
  · rw [h]
  · rw [hm]
    rcases h with ⟨h1, h2⟩ | h
    · simp [h1, h2]
    · simp only [h]
      split <;> rfl

/-- C1, at the text `/no/such/dir: run tests` where nothing exists but `/work`. -/
theorem parseMessage_fallback_witness :
    parseMessage (envOf [utf16 "/work"] (utf16 "/home/u") (utf16 "/work"))
        (utf16 " /no/such/dir: run tests ") =
      { directory := utf16 "/work", task := utf16 "/no/such/dir: run tests" } :=
  parseMessage_fallback _ _
    (Or.inr ⟨utf16 " /no/such/dir", utf16 "run tests ", by decide, Or.inr (by decide)⟩)

/-- A home directory is a replacement pattern for `replace`: `$$` in it comes
out as one `$`. -/
theorem expandHome_dollar_example :
    expandHome (utf16 "/home/a$$b") (utf16 "~/p") = utf16 "/home/a$b/p" := by decide

/-- C2, refuted as stated: the path `/tmp/a:b` exists and starts with `/`, and
for the text `/tmp/a:b: run tests` the parser returns the default directory
and the whole text, not `/tmp/a:b` and `run tests`. -/
theorem parseMessage_colon_path_counterexample :
    (envOf [utf16 "/tmp/a:b"] (utf16 "/home/u") (utf16 "/work")).existsSync
        (replaceLeadingTilde (utf16 "/home/u") (utf16 "/tmp/a:b")) = true ∧
      startsWith (utf16 "/tmp/a:b") 47 = true ∧
      parseMessage (envOf [utf16 "/tmp/a:b"] (utf16 "/home/u") (utf16 "/work"))
          (utf16 "/tmp/a:b" ++ utf16 ": " ++ utf16 "run tests") ≠
        { directory := replaceLeadingTilde (utf16 "/home/u") (utf16 "/tmp/a:b"),
          task := trim (utf16 "run tests") } ∧
      parseMessage (envOf [utf16 "/tmp/a:b"] (utf16 "/home/u") (utf16 "/work"))
          (utf16 "/tmp/a:b" ++ utf16 ": " ++ utf16 "run tests") =
        { directory := utf16 "/work", task := utf16 "/tmp/a:b: run tests" } := by
  decide

/-- C2, amended. For a text `<path>: <task>` whose path has no colon, starts
with `/` or `~`, and whose trimmed path, a leading `~` replaced with the home
directory, exists (the home directory having no `$` when the path starts with
`~`), `parseMessage` returns that expanded path and the trimmed task. -/
theorem parseMessage_valid_path (env : Env) (path task : JsString)
    (hcolon : 58 ∉ path)
    (hstart : startsWith path 47 = true ∨ startsWith path 126 = true)
    (hhome : startsWith path 126 = false ∨ 36 ∉ env.HOME)
    (hexists : env.existsSync (replaceLeadingTilde env.HOME (trim path)) = true) :
    parseMessage env (path ++ utf16 ": " ++ task) =
      { directory := replaceLeadingTilde env.HOME (trim path), task := trim task } := by
  cases path with
  | nil => simp [startsWith] at hstart
  | cons c rest =>
    have hc : isWhiteSpace c = false := by
      rcases hstart with h | h <;> simp [startsWith] at h <;> subst h <;> decide
    have htrim : trim (c :: rest) = c :: trimEnd rest := trim_cons_of_not c rest hc
    have hstart1 : (startsWith (trim (c :: rest)) 47 || startsWith (trim (c :: rest)) 126)
        = true := by
      rw [htrim]
      simpa [startsWith] using hstart
    have hhome1 : startsWith (trim (c :: rest)) 126 = false ∨ 36 ∉ env.HOME := by
      rw [htrim]
      simpa [startsWith] using hhome
    have htext : (c :: rest) ++ utf16 ": " ++ task = (c :: rest) ++ 58 :: (32 :: task) := by
      have : utf16 ": " = [58, 32] := by decide
      simp [this]
    obtain ⟨g, hg⟩ := matchRemainder_isSome 32 task
    have hgt : trim g = trim task := by
      rw [matchRemainder_trim _ _ hg]
      exact trim_cons_of_whiteSpace 32 task (by decide)
    unfold parseMessage
    rw [htext, colonMatch_append c rest _ hcolon, hg]
    simp only [Option.map_some', hstart1, if_true]
    rw [expandHome_eq_replaceLeadingTilde _ _ hhome1, hexists, hgt]
    rfl

/-- C2 amended, at the text `~/proj : fix 'it'` with home `/home/u`. -/
theorem parseMessage_valid_path_witness :
    parseMessage (envOf [utf16 "/home/u/proj"] (utf16 "/home/u") (utf16 "/work"))
        (utf16 "~/proj " ++ utf16 ": " ++ utf16 " fix 'it' ") =
      { directory := replaceLeadingTilde (utf16 "/home/u") (trim (utf16 "~/proj ")),
        task := trim (utf16 " fix 'it' ") } :=
  parseMessage_valid_path _ _ _ (by decide) (by decide) (by decide) (by decide)

/-! ## Command line: properties -/

theorem shellWords_single_escapedTask (task : JsString) :
    ∀ w : JsString,
      shellWords .single (some w) (escapedTask task ++ [39]) = some [w ++ task] := by
  induction task with
  | nil => intro w; simp [escapedTask, shellWords]
  | cons c task ih =>
    intro w
    have hesc : escapedTask (c :: task) =
        (if c = 39 then [39, 92, 39, 39] else [c]) ++ escapedTask task := by
      simp [escapedTask]
    rw [hesc]
    by_cases hc : c = 39
    · subst hc
      have := ih (w ++ [39])
      simp [shellWords, escapedTask] at this ⊢
      exact this
    · have := ih (w ++ [c])
      simp [shellWords, hc, escapedTask] at this ⊢
      exact this

theorem shellWords_command_head (r : JsString) :
    shellWords .unquoted none (utf16 "claude -p --dangerously-skip-permissions '" ++ r) =
      (shellWords .single (some []) r).map fun ws =>
        utf16 "claude" :: utf16 "-p" :: utf16 "--dangerously-skip-permissions" :: ws := by
  have h1 : utf16 "claude -p --dangerously-skip-permissions '" =
      [99, 108, 97, 117, 100, 101, 32, 45, 112, 32, 45, 45, 100, 97, 110, 103, 101, 114, 111,
        117, 115, 108, 121, 45, 115, 107, 105, 112, 45, 112, 101, 114, 109, 105, 115, 115, 105,
        111, 110, 115, 32, 39] := by decide
  have h2 : utf16 "claude" = [99, 108, 97, 117, 100, 101] := by decide
  have h3 : utf16 "-p" = [45, 112] := by decide
  have h4 : utf16 "--dangerously-skip-permissions" =
      [45, 45, 100, 97, 110, 103, 101, 114, 111, 117, 115, 108, 121, 45, 115, 107, 105, 112,
        45, 112, 101, 114, 109, 105, 115, 115, 105, 111, 110, 115] := by decide
  rw [h1, h2, h3, h4]
  simp [shellWords, isShellSpecial]
  cases shellWords .single (some []) r <;> rfl

theorem zero_not_mem_escapedTask (task : JsString) (h : 0 ∉ task) : 0 ∉ escapedTask task := by
  intro hm
  simp only [escapedTask, List.mem_flatMap] at hm
  obtain ⟨c, hc, h0⟩ := hm
  by_cases h39 : c = 39
  · simp [h39] at h0
  · simp [h39] at h0
    exact h (h0 ▸ hc)

/-- C3. For every task without a NUL code unit, the shell splits the command
line built by `runClaudeCode` into exactly the four words `claude`, `-p`,
`--dangerously-skip-permissions` and the task itself, code unit for code unit:
no task text ends the quoted argument or adds a word. -/
theorem spawnArgv_fullCommand (task : JsString) (h : 0 ∉ task) :
    spawnArgv (fullCommand task) =
      some [utf16 "claude", utf16 "-p", utf16 "--dangerously-skip-permissions", task] := by
  have hq : utf16 "'" = [39] := by decide
  have h0 : 0 ∉ fullCommand task := by
    have hhead : 0 ∉ utf16 "claude -p --dangerously-skip-permissions '" := by decide
    have hesc := zero_not_mem_escapedTask task h
    simp [fullCommand, hq, hhead, hesc]
  unfold spawnArgv
  rw [if_neg h0]
  unfold fullCommand
  rw [List.append_assoc, shellWords_command_head, hq, shellWords_single_escapedTask]
  simp

/-- C3, at the task `it's; rm -rf $HOME 'x'`, whose quotes, semicolon and
dollar sign reach the program as plain text. -/
theorem spawnArgv_fullCommand_witness :
    spawnArgv (fullCommand (utf16 "it's; rm -rf $HOME 'x' \\")) =
      some [utf16 "claude", utf16 "-p", utf16 "--dangerously-skip-permissions",
        utf16 "it's; rm -rf $HOME 'x' \\"] :=
  spawnArgv_fullCommand _ (by decide)

theorem fullCommand_quote_example : fullCommand (utf16 "it's") =
    utf16 "claude -p --dangerously-skip-permissions 'it'\\''s'" := by decide
theorem spawnArgv_semicolon_example : spawnArgv (utf16 "claude -p x; ls") = none := by decide
theorem spawnArgv_quoting_example : spawnArgv (utf16 "a 'b c'\\ d '' e\\'f") =
    some [utf16 "a", utf16 "b c d", utf16 "", utf16 "e'f"] := by decide


/-! ## Session registry and event loop: properties -/

theorem SessionMap.has_delete (m : SessionMap) (key : JsString) :
    (m.delete key).has key = false := by
  simp [SessionMap.has, SessionMap.delete]

theorem onClose_returned (accepts : Bool) (code : Option Nat) (m : SessionMap) (s : Session) :
    ∃ s1, onClose accepts code m s = .returned (m.delete s.sessionId, s1) := by
  unfold onClose
  by_cases hc : code = some 0
  · simp only [hc, if_true]
    exact ⟨_, rfl⟩
  · simp only [hc, if_false]
    exact ⟨_, rfl⟩

theorem onError_returned (accepts : Bool) (message : JsString) (m : SessionMap) (s : Session) :
    ∃ s1, onError accepts message m s = .returned (m.delete s.sessionId, s1) :=
  ⟨_, rfl⟩

/-- C4, evaluated on the code: when the second request of a session key
arrives while the first is suspended at its acknowledgment, both pass the
admission check and both spawn: two processes run for the key `c1-u1`, no
"already active" notice is sent, and the registry keeps the second only. -/
theorem race_spawns_two_processes :
    (run (envOf [utf16 "/work"] (utf16 "/home/u") (utf16 "/work")) World.init raceTurns).map
        (fun w => ((w.processesOf (utf16 "c1-u1")).map (fun p => p.pid),
          w.activeSessions.entries,
          w.replies.map (fun r => decide (r.2 = alreadyActiveText)))) =
      some ([1, 2], [(utf16 "c1-u1", 2)], [false, false]) := by
  decide

/-- Scenario 4 of the specification: a second request that arrives after the
first session was registered gets the notice and starts nothing. -/
theorem second_request_rejected_example :
    (run (envOf [utf16 "/work"] (utf16 "/home/u") (utf16 "/work")) World.init
        [.message ⟨1, false, false, false, utf16 "c1", utf16 "u1", utf16 "fix the login bug"⟩,
          .acknowledged 1 1000,
          .message ⟨2, false, false, false, utf16 "c1", utf16 "u1", utf16 "run tests"⟩]).map
        (fun w => ((w.processesOf (utf16 "c1-u1")).map (fun p => p.pid),
          w.activeSessions.entries, w.pending,
          w.replies.map (fun r => decide (r.2 = alreadyActiveText)))) =
      some ([1], [(utf16 "c1-u1", 1)], [], [false, true]) := by
  decide

/-- C5. For every process that was spawned for a session and every state of
the registry, the turn that handles its `close` event (exit code 0, another
code, or none) and the turn that handles its `error` event complete, and the
registry has no entry for the key of the session afterwards, whether
`statusMessage.edit` resolves or rejects. -/
theorem terminal_event_releases_key (env : Env) (w : World) (pid : Nat) (p : Process)
    (accepts : Bool) (hp : (w.live.find? fun q => q.pid == pid) = some p) :
    (∀ code, ∃ w1, step env w (.close pid code accepts) = some w1 ∧
        w1.activeSessions.has p.session.sessionId = false) ∧
      (∀ message, ∃ w1, step env w (.error pid message accepts) = some w1 ∧
        w1.activeSessions.has p.session.sessionId = false) := by
  constructor
  · intro code
    obtain ⟨s1, h1⟩ := onClose_returned accepts code w.activeSessions p.session
    have hs : step env w (.close pid code accepts) =
        some { w with
          activeSessions := w.activeSessions.delete p.session.sessionId
          live := w.live.filter fun q => !(q.pid == pid) } := by
      simp only [step, hp, h1]
    exact ⟨_, hs, SessionMap.has_delete _ _⟩
  · intro message
    obtain ⟨s1, h1⟩ := onError_returned accepts message w.activeSessions p.session
    have hs : step env w (.error pid message accepts) =
        some { (w.setProcess { p with session := s1 }) with
          activeSessions := w.activeSessions.delete p.session.sessionId } := by
      simp only [step, hp, h1]
    exact ⟨_, hs, SessionMap.has_delete _ _⟩

/-- C5, at a state with one running session whose status message rejects
every edit. -/
theorem terminal_event_releases_key_witness :
    (∀ code, ∃ w1, step (envOf [] [] []) oneSession (.close 1 code false) = some w1 ∧
        w1.activeSessions.has (utf16 "c1-u1") = false) ∧
      (∀ message, ∃ w1, step (envOf [] [] []) oneSession (.error 1 message false) = some w1 ∧
        w1.activeSessions.has (utf16 "c1-u1") = false) :=
  terminal_event_releases_key (envOf [] [] []) oneSession 1
    ⟨1, fullCommand (utf16 "run tests"), utf16 "/work",
      ⟨utf16 "c1-u1", utf16 "/work", utf16 "partial output", 0, []⟩⟩ false (by decide)

/-! ## `messageCreate`: properties -/

theorem parseMessage_missing_path (env : Env) (path task : JsString)
    (hcolon : 58 ∉ path) (hstart : startsWith path 47 = true)
    (hmissing : env.existsSync (trim path) = false) :
    parseMessage env (path ++ utf16 ": " ++ task) =
      { directory := env.DEFAULT_DIR, task := trim (path ++ utf16 ": " ++ task) } := by
  cases path with
  | nil => simp [startsWith] at hstart
  | cons c rest =>
    have hc47 : c = 47 := by simpa [startsWith] using hstart
    have hc : isWhiteSpace c = false := by subst hc47; decide
    have htrim : trim (c :: rest) = c :: trimEnd rest := trim_cons_of_not c rest hc
    have hexp : expandHome env.HOME (c :: trimEnd rest) = c :: trimEnd rest := by
      subst hc47
      simp [expandHome]
    have htext : (c :: rest) ++ utf16 ": " ++ task = (c :: rest) ++ 58 :: (32 :: task) := by
      have : utf16 ": " = [58, 32] := by decide
      simp [this]
    obtain ⟨g, hg⟩ := matchRemainder_isSome 32 task
    unfold parseMessage
    rw [htext, colonMatch_append c rest _ hcolon, hg]
    simp only [Option.map_some']
    rw [htrim] at hmissing
    rw [htrim, hexp, hmissing]
    split <;> rfl

/-- C6, refuted as stated: `/no/such/dir` does not exist and the default
directory `/work` does; for the direct message `/no/such/dir: run tests` the
handler sends no "Directory not found" reply and calls `runClaudeCode` with the
default directory and the whole text as the task, and after the acknowledgment
a process runs in `/work` and the session is registered. -/
theorem missing_directory_counterexample :
    (envOf [utf16 "/work"] (utf16 "/home/u") (utf16 "/work")).existsSync (utf16 "/no/such/dir")
        = false ∧
      messageCreate (envOf [utf16 "/work"] (utf16 "/home/u") (utf16 "/work"))
          ⟨1, false, false, false, utf16 "c1", utf16 "u1", utf16 "/no/such/dir: run tests"⟩ =
        .runClaudeCode (utf16 "/work") (utf16 "/no/such/dir: run tests") ∧
      (run (envOf [utf16 "/work"] (utf16 "/home/u") (utf16 "/work")) World.init
          [.message ⟨1, false, false, false, utf16 "c1", utf16 "u1",
              utf16 "/no/such/dir: run tests"⟩,
            .acknowledged 1 1000]).map
          (fun w => (w.live.map (fun p => (p.pid, p.cwd)), w.activeSessions.entries,
            w.replies.map (fun r => decide (r.2 = directoryNotFoundText (utf16 "/work"))))) =
        some ([(1, utf16 "/work")], [(utf16 "c1-u1", 1)], [false]) := by
  decide

/-- C6, amended. For a message that the handler processes (not from a bot; a
direct message or one that mentions the bot) whose cleaned text is
`<path>: <task>` with a path that has no colon, starts with `/` and, trimmed,
does not exist, the parser falls back to the default directory: the handler
replies "Directory not found" for the default directory and does not call
`runClaudeCode` when the default directory does not exist, and calls
`runClaudeCode` with the default directory and the whole trimmed text when it
exists. -/
theorem messageCreate_missing_path (env : Env) (m : Message) (path task : JsString)
    (hbot : m.authorBot = false) (haddressed : m.inGuild = false ∨ m.mentionsBot = true)
    (hcontent : trim (stripMentions 0 m.content) = path ++ utf16 ": " ++ task)
    (hcolon : 58 ∉ path) (hstart : startsWith path 47 = true)
    (hmissing : env.existsSync (trim path) = false) :
    messageCreate env m =
      if env.existsSync env.DEFAULT_DIR then
        .runClaudeCode env.DEFAULT_DIR (path ++ utf16 ": " ++ task)
      else .reply (directoryNotFoundText env.DEFAULT_DIR) := by
  have hne : path ++ utf16 ": " ++ task ≠ [] := by
    cases path with
    | nil => simp [startsWith] at hstart
    | cons c rest => simp
  have htrim : trim (path ++ utf16 ": " ++ task) = path ++ utf16 ": " ++ task := by
    rw [← hcontent]
    exact trim_trim _
  have haddr : (!(!m.inGuild) && !m.mentionsBot) = false := by
    rcases haddressed with h | h <;> simp [h]
  unfold messageCreate
  simp only [hbot, haddr, hcontent, hne, parseMessage_missing_path env path task hcolon hstart
    hmissing, htrim]
  by_cases hd : env.existsSync env.DEFAULT_DIR = true
  · simp [hd]
  · simp [hd]

/-- C6 amended, at a message that mentions the bot, with and without an
existing default directory. -/
theorem messageCreate_missing_path_witness :
    messageCreate (envOf [] (utf16 "/home/u") (utf16 "/work"))
        ⟨1, false, true, true, utf16 "c1", utf16 "u1", utf16 "<@!42> /no/such/dir: run tests"⟩ =
      (if (envOf [] (utf16 "/home/u") (utf16 "/work")).existsSync (utf16 "/work") then
        .runClaudeCode (utf16 "/work") (utf16 "/no/such/dir" ++ utf16 ": " ++ utf16 "run tests")
      else .reply (directoryNotFoundText (utf16 "/work"))) :=
  messageCreate_missing_path _ _ (utf16 "/no/such/dir") (utf16 "run tests")
    (by decide) (by decide) (by decide) (by decide) (by decide) (by decide)

theorem messageCreate_mention_example : messageCreate (envOf [] (utf16 "/home/u") (utf16 "/work"))
    ⟨1, false, true, true, utf16 "c1", utf16 "u1", utf16 "<@!42> /no/such/dir: run tests"⟩ =
    .reply (utf16 "❌ Directory not found: `/work`") := by decide
theorem stripMentions_example :
    stripMentions 0 (utf16 "<@1><@!23>a<@>b<@!>c<@12 <@!9>") = utf16 "a<@>b<@!>c<@12 " := by
  decide


/-! ## Status relay: properties -/

theorem length_sliceLast (n : Nat) (s : JsString) (h : n ≤ s.length) :
    (sliceLast n s).length = n := by
  simp only [sliceLast, List.length_drop]
  omega

theorem length_statusHeading (isFinal : Bool) :
    (statusHeading isFinal).length = if isFinal then 15 else 13 := by
  cases isFinal <;> decide

theorem length_formattedContent (directory content : JsString) (isFinal : Bool) :
    (formattedContent directory content isFinal).length =
      (if isFinal then 15 else 13) + 5 + directory.length + 7 +
        (displayContent content).length + 4 := by
  have h1 : (utf16 "\n📁 `").length = 5 := by decide
  have h2 : (utf16 "`\n\n```\n").length = 7 := by decide
  have h3 : (utf16 "\n```").length = 4 := by decide
  simp only [formattedContent, List.length_append, length_statusHeading, h1, h2, h3]

theorem updateStatusText_length_le (directory content : JsString) (isFinal : Bool) :
    (updateStatusText directory content isFinal).length ≤ 2000 := by
  simp only [updateStatusText, sliceFirst, List.length_take]
  omega

theorem length_failureText (code : Option Nat) (directory outputBuffer : JsString) :
    (failureText code directory outputBuffer).length =
      25 + (showCode code).length + 6 + directory.length + 7 +
        (orElse (sliceLast 1500 outputBuffer) (utf16 "No output")).length + 4 := by
  have h0 : (utf16 "❌ **Failed** (exit code: ").length = 25 := by decide
  have h1 : (utf16 ")\n📁 `").length = 6 := by decide
  have h2 : (utf16 "`\n\n```\n").length = 7 := by decide
  have h3 : (utf16 "\n```").length = 4 := by decide
  simp only [failureText, List.length_append, h0, h1, h2, h3]

theorem length_failureText_of_long (code : Option Nat) (directory outputBuffer : JsString)
    (h : 1500 ≤ outputBuffer.length) :
    (failureText code directory outputBuffer).length =
      25 + (showCode code).length + 6 + directory.length + 7 + 1500 + 4 := by
  have hl := length_sliceLast 1500 outputBuffer h
  have hne : sliceLast 1500 outputBuffer ≠ [] := by
    intro e
    rw [e] at hl
    simp at hl
  rw [length_failureText, orElse, if_neg hne, hl]

theorem onClose_failure_edits (accepts : Bool) (code : Option Nat) (m : SessionMap)
    (s : Session) (h : code ≠ some 0) :
    (onClose accepts code m s).state.2.edits =
      s.edits ++ [failureText code s.directory s.outputBuffer] := by
  cases accepts <;> simp [onClose, h, statusMessageEdit, Outcome.caught, Outcome.state]

/-- C7, evaluated on the code: in a directory of 502 code units, with 1500
code units of output and exit code 1, the `close` handler hands
`statusMessage.edit` one text, of 2045 code units: the failure path does not
cut its text to 2000 as `updateStatus` does. -/
theorem failure_edit_exceeds_limit :
    (onClose true (some 1) ⟨[]⟩ longDirectorySession).state.2.edits.map List.length =
      [2045] := by
  have hcode : (showCode (some 1)).length = 1 := by decide
  have hbuf : 1500 ≤ longDirectorySession.outputBuffer.length := by
    simp only [longDirectorySession, List.length_replicate, le_refl]
  have hdir : longDirectorySession.directory.length = 502 := by
    simp only [longDirectorySession, List.length_cons, List.length_append,
      List.length_replicate]
  have hedits : longDirectorySession.edits = [] := rfl
  rw [onClose_failure_edits _ _ _ _ (by decide), hedits, List.nil_append, List.map_singleton,
    length_failureText_of_long _ _ _ hbuf, hcode, hdir]

theorem getLastD_le_getLastD (ts : List Int) (a b : Int) (h : a ≤ b) :
    ts.getLastD a ≤ ts.getLastD b := by
  cases ts with
  | nil => exact h
  | cons t ts => rw [List.getLastD_cons, List.getLastD_cons]

theorem chain_of_le (a b : Int) (ts : List Int) (h : a ≤ b)
    (hc : List.Chain (· ≤ ·) b ts) : List.Chain (· ≤ ·) a ts := by
  cases hc with
  | nil => exact List.Chain.nil
  | cons hbt hrest => exact List.Chain.cons (le_trans h hbt) hrest

theorem onStdout_of_elapsed (now : Int) (accepts : Bool) (chunk : JsString) (s : Session)
    (h : now - s.lastUpdateTime > UPDATE_INTERVAL) :
    onStdout now accepts chunk s =
      { s with outputBuffer := s.outputBuffer ++ chunk, lastUpdateTime := now,
               edits := s.edits ++ [updateStatusText s.directory
                 (s.outputBuffer ++ chunk) false] } := by
  cases accepts <;>
    simp [onStdout, h, updateStatus, statusMessageEdit, Outcome.caught, Outcome.state]

theorem onStdout_of_not_elapsed (now : Int) (accepts : Bool) (chunk : JsString) (s : Session)
    (h : ¬ now - s.lastUpdateTime > UPDATE_INTERVAL) :
    onStdout now accepts chunk s = { s with outputBuffer := s.outputBuffer ++ chunk } := by
  simp [onStdout, h]

theorem onStdout_outputBuffer (now : Int) (accepts : Bool) (chunk : JsString) (s : Session) :
    (onStdout now accepts chunk s).outputBuffer = s.outputBuffer ++ chunk := by
  by_cases h : now - s.lastUpdateTime > UPDATE_INTERVAL
  · rw [onStdout_of_elapsed now accepts chunk s h]
  · rw [onStdout_of_not_elapsed now accepts chunk s h]

theorem relay_edits_bound (events : List Output) :
    ∀ s : Session, List.Chain (· ≤ ·) s.lastUpdateTime (stdoutTimes events) →
      ∃ k : Nat, (relay s events).edits.length = s.edits.length + k ∧
        2000 * (k : Int) ≤ (stdoutTimes events).getLastD s.lastUpdateTime - s.lastUpdateTime := by
  induction events with
  | nil =>
    intro s _
    exact ⟨0, rfl, by simp [stdoutTimes]⟩
  | cons e events ih =>
    intro s hchain
    cases e with
    | stderr chunk =>
      exact ih (onStderr chunk s) hchain
    | stdout now accepts chunk =>
      have hchain1 : List.Chain (· ≤ ·) s.lastUpdateTime (now :: stdoutTimes events) := hchain
      rw [List.chain_cons] at hchain1
      obtain ⟨hle, hrest⟩ := hchain1
      show ∃ k : Nat, (relay (onStdout now accepts chunk s) events).edits.length =
          s.edits.length + k ∧
        2000 * (k : Int) ≤
          (now :: stdoutTimes events).getLastD s.lastUpdateTime - s.lastUpdateTime
      rw [List.getLastD_cons]
      by_cases hgt : now - s.lastUpdateTime > UPDATE_INTERVAL
      · rw [onStdout_of_elapsed now accepts chunk s hgt]
        obtain ⟨k, hk, hb⟩ := ih
          { s with outputBuffer := s.outputBuffer ++ chunk, lastUpdateTime := now,
                   edits := s.edits ++ [updateStatusText s.directory
                     (s.outputBuffer ++ chunk) false] } hrest
        refine ⟨k + 1, ?_, ?_⟩
        · rw [hk]
          simp only [List.length_append, List.length_singleton]
          omega
        · simp only [UPDATE_INTERVAL] at hgt
          simp only at hb
          push_cast
          omega
      · rw [onStdout_of_not_elapsed now accepts chunk s hgt]
        obtain ⟨k, hk, hb⟩ := ih { s with outputBuffer := s.outputBuffer ++ chunk }
          (chain_of_le _ _ _ hle hrest)
        refine ⟨k, hk, ?_⟩
        have := getLastD_le_getLastD (stdoutTimes events) _ _ hle
        simp only at hb
        omega

/-- C8. From a session whose last update time is `t0`, on chunks whose
`stdout` arrival times `t1 ≤ ... ≤ tn` do not decrease from `t0`, the data
handlers call `updateStatus` at most `(tn - t0) / 2000 + 1` times, however
many chunks arrive (`tn` is `t0` when no `stdout` chunk arrives). -/
theorem updateCount_le (s : Session) (events : List Output)
    (h : List.Chain (· ≤ ·) s.lastUpdateTime (stdoutTimes events)) :
    (updateCount s events : Int) ≤
      ((stdoutTimes events).getLastD s.lastUpdateTime - s.lastUpdateTime) / UPDATE_INTERVAL
        + 1 := by
  obtain ⟨k, hk, hb⟩ := relay_edits_bound events s h
  have hcount : updateCount s events = k := by
    simp only [updateCount, hk]
    omega
  rw [hcount]
  simp only [UPDATE_INTERVAL]
  omega

/-- C8, at six `stdout` chunks within 4.5 seconds: at most 3 updates (the
handlers make 2). -/
theorem updateCount_le_witness :
    (updateCount ⟨utf16 "c1-u1", utf16 "/work", [], 0, []⟩ burst : Int) ≤
      ((stdoutTimes burst).getLastD 0 - 0) / UPDATE_INTERVAL + 1 :=
  updateCount_le ⟨utf16 "c1-u1", utf16 "/work", [], 0, []⟩ burst
    (by simp [burst, stdoutTimes])

theorem updateCount_burst_example :
    updateCount ⟨utf16 "c1-u1", utf16 "/work", [], 0, []⟩ burst = 2 := by decide


theorem displayContent_of_long (content : JsString) (h : content.length > MAX_MESSAGE_LENGTH) :
    displayContent content = utf16 "..." ++ sliceLast MAX_MESSAGE_LENGTH content := by
  simp [displayContent, h]

theorem sliceLast_markedOutput :
    sliceLast MAX_MESSAGE_LENGTH markedOutput = List.replicate 1899 120 ++ [121] := by
  have hlen : markedOutput.length = 1901 := by
    simp only [markedOutput, List.length_append, List.length_replicate, List.length_singleton]
  have hrep : List.replicate 1900 120 = 120 :: List.replicate 1899 120 := rfl
  have hsub : 1901 - MAX_MESSAGE_LENGTH = 1 := by decide
  rw [sliceLast, hlen, hsub, markedOutput, hrep]
  rfl

/-- C9, refuted as stated: with a directory of 73 code units and an output of
1901 code units, the text of a running update stops after 2000 code units,
one short of the end of the output: the last code unit of the output is not
in it, so the ellipsis followed by the last 1900 code units is not either. -/
theorem display_cut_counterexample :
    markedOutput.length > MAX_MESSAGE_LENGTH ∧
      121 ∈ utf16 "..." ++ sliceLast MAX_MESSAGE_LENGTH markedOutput ∧
      121 ∉ updateStatusText wideDirectory markedOutput false ∧
      ¬ occursIn (utf16 "..." ++ sliceLast MAX_MESSAGE_LENGTH markedOutput)
        (updateStatusText wideDirectory markedOutput false) := by
  have hlen : markedOutput.length > MAX_MESSAGE_LENGTH := by
    simp only [markedOutput, List.length_append, List.length_replicate, List.length_singleton,
      MAX_MESSAGE_LENGTH]
    decide
  have hpart : 121 ∈ utf16 "..." ++ sliceLast MAX_MESSAGE_LENGTH markedOutput := by
    rw [sliceLast_markedOutput]
    exact List.mem_append_right _ (List.mem_append_right _ (List.mem_singleton_self _))
  have hsplit : formattedContent wideDirectory markedOutput false =
      (statusHeading false ++ utf16 "\n📁 `" ++ wideDirectory ++ utf16 "`\n\n```\n" ++
        utf16 "..." ++ List.replicate 1899 120) ++ ([121] ++ utf16 "\n```") := by
    rw [formattedContent, displayContent_of_long _ hlen, sliceLast_markedOutput]
    simp only [List.append_assoc]
  have hhead : (statusHeading false ++ utf16 "\n📁 `" ++ wideDirectory ++ utf16 "`\n\n```\n" ++
      utf16 "..." ++ List.replicate 1899 120).length = 2000 := by
    have h0 : (statusHeading false).length = 13 := by decide
    have h1 : (utf16 "\n📁 `").length = 5 := by decide
    have h2 : (utf16 "`\n\n```\n").length = 7 := by decide
    have h3 : (utf16 "...").length = 3 := by decide
    simp only [List.length_append, List.length_replicate, wideDirectory, h0, h1, h2, h3]
  have hsent : updateStatusText wideDirectory markedOutput false =
      statusHeading false ++ utf16 "\n📁 `" ++ wideDirectory ++ utf16 "`\n\n```\n" ++
        utf16 "..." ++ List.replicate 1899 120 := by
    rw [updateStatusText, sliceFirst, hsplit, List.take_left' hhead]
  have hnot : 121 ∉ updateStatusText wideDirectory markedOutput false := by
    rw [hsent]
    have h0 : 121 ∉ statusHeading false := by decide
    have h1 : 121 ∉ utf16 "\n📁 `" := by decide
    have h2 : 121 ∉ utf16 "`\n\n```\n" := by decide
    have h3 : 121 ∉ utf16 "..." := by decide
    have h4 : 121 ∉ wideDirectory := fun hm => by
      have := List.eq_of_mem_replicate hm
      omega
    have h5 : 121 ∉ List.replicate 1899 120 := fun hm => by
      have := List.eq_of_mem_replicate hm
      omega
    simp only [List.mem_append, h0, h1, h2, h3, h4, h5, or_self, not_false_eq_true]
  refine ⟨hlen, hpart, hnot, ?_⟩
  rintro ⟨before, after, hw⟩
  apply hnot
  rw [hw]
  simp only [List.mem_append]
  exact Or.inl (Or.inr (List.mem_append.mp hpart))

/-- C9, amended. For an output longer than 1900 code units and a directory of
at most 70 code units (72 for a running update), the text that `updateStatus`
hands to `statusMessage.edit` contains in full the ellipsis followed by the
last 1900 code units of the output. -/
theorem updateStatusText_contains_tail (directory content : JsString) (isFinal : Bool)
    (hlong : content.length > MAX_MESSAGE_LENGTH)
    (hdir : directory.length ≤ if isFinal then 70 else 72) :
    occursIn (utf16 "..." ++ sliceLast MAX_MESSAGE_LENGTH content)
      (updateStatusText directory content isFinal) := by
  have h1 : (utf16 "\n📁 `").length = 5 := by decide
  have h2 : (utf16 "`\n\n```\n").length = 7 := by decide
  have h3 : (utf16 "...").length = 3 := by decide
  have hs : (sliceLast MAX_MESSAGE_LENGTH content).length = 1900 :=
    length_sliceLast _ _ (Nat.le_of_lt hlong)
  have hlen : (statusHeading isFinal ++ utf16 "\n📁 `" ++ directory ++ utf16 "`\n\n```\n" ++
      (utf16 "..." ++ sliceLast MAX_MESSAGE_LENGTH content)).length ≤ 2000 := by
    simp only [List.length_append, length_statusHeading, h1, h2, h3, hs]
    cases isFinal <;> simp at hdir ⊢ <;> omega
  refine ⟨statusHeading isFinal ++ utf16 "\n📁 `" ++ directory ++ utf16 "`\n\n```\n",
    List.take (2000 - (statusHeading isFinal ++ utf16 "\n📁 `" ++ directory ++
      utf16 "`\n\n```\n" ++ (utf16 "..." ++ sliceLast MAX_MESSAGE_LENGTH content)).length)
      (utf16 "\n```"), ?_⟩
  rw [updateStatusText, sliceFirst, formattedContent, displayContent_of_long _ hlong,
    List.take_append_eq_append_take, List.take_of_length_le hlen]

/-- C9 amended, at a final update in `/work` with an output of 1901 code
units. -/
theorem updateStatusText_contains_tail_witness :
    occursIn (utf16 "..." ++ sliceLast MAX_MESSAGE_LENGTH markedOutput)
      (updateStatusText (utf16 "/work") markedOutput true) :=
  updateStatusText_contains_tail (utf16 "/work") markedOutput true
    (by simp only [markedOutput, List.length_append, List.length_replicate,
          List.length_singleton, MAX_MESSAGE_LENGTH]; decide)
    (by decide)

/-- C10, refuted as stated: for the `stderr` chunk of the two lines `a` and
`b`, the handler appends `[stderr] a` and `b`: the second line of the chunk has
no marker. -/
theorem stderr_second_line_counterexample :
    (onStderr (utf16 "a\nb") ⟨utf16 "c1-u1", utf16 "/work", [], 0, []⟩).outputBuffer =
        utf16 "[stderr] a\nb" ∧
      lines (utf16 "[stderr] a\nb") = [utf16 "[stderr] a", utf16 "b"] ∧
      (lines (utf16 "[stderr] a\nb")).map hasStderrMarker = [true, false] := by
  decide

/-- C10, amended. The `stderr` handler appends the marker `[stderr] ` once,
followed by the chunk as it is, whatever lines the chunk has; and after any
list of chunks the buffer is the former buffer followed by the texts of the
chunks in arrival order, a `stdout` chunk as it is and a `stderr` chunk after
one marker. -/
theorem relay_outputBuffer (s : Session) (events : List Output) :
    (∀ chunk : JsString,
      (onStderr chunk s).outputBuffer = s.outputBuffer ++ (utf16 "[stderr] " ++ chunk)) ∧
    (∀ (now : Int) (accepts : Bool) (chunk : JsString),
      (onStdout now accepts chunk s).outputBuffer = s.outputBuffer ++ chunk) ∧
    (relay s events).outputBuffer =
      s.outputBuffer ++ (events.map Output.text).flatten := by
  refine ⟨fun chunk => rfl,
    fun now accepts chunk => onStdout_outputBuffer now accepts chunk s, ?_⟩
  induction events generalizing s with
  | nil => simp [relay]
  | cons e events ih =>
    cases e with
    | stdout now accepts chunk =>
      rw [relay, ih, onStdout_outputBuffer]
      simp [Output.text]
    | stderr chunk =>
      rw [relay, ih]
      simp [Output.text, onStderr]

theorem relay_buffer_example :
    (relay ⟨utf16 "c1-u1", utf16 "/work", [], 0, []⟩
      [.stdout 1 true (utf16 "out\n"), .stderr (utf16 "e1\ne2\n"),
        .stdout 2 true (utf16 "x")]).outputBuffer =
      utf16 "out\n[stderr] e1\ne2\nx" := by
  decide

/-! ## Request parser: worked inputs -/

theorem parseMessage_path_example :
    parseMessage (envOf [utf16 "/tmp/proj"] (utf16 "/home/u") (utf16 "/work"))
        (utf16 "/tmp/proj: run tests") =
      ⟨utf16 "/tmp/proj", utf16 "run tests"⟩ := by
  decide

theorem parseMessage_tilde_example :
    parseMessage (envOf [utf16 "/home/u/p"] (utf16 "/home/u") (utf16 "/work"))
        (utf16 "~/p:  \n fix it ") =
      ⟨utf16 "/home/u/p", utf16 "fix it"⟩ := by
  decide

theorem parseMessage_bare_example :
    parseMessage (envOf [utf16 "/tmp/proj"] (utf16 "/home/u") (utf16 "/work"))
        (utf16 " fix the login bug ") =
      ⟨utf16 "/work", utf16 "fix the login bug"⟩ := by
  decide

theorem colonMatch_blank_example :
    colonMatch (utf16 "a: \n") = some (utf16 "a", utf16 "\n") := by
  decide

theorem colonMatch_no_remainder_example : colonMatch (utf16 "a:") = none := by
  decide

theorem colonMatch_leading_colon_example : colonMatch (utf16 ":a") = none := by
  decide

end Bot
